import Mathlib

/-!
Verification development for the dream-collections application.

Shallow embedding of the Rust sources:
  * `src/items.rs` — item model, option flags, catalog of sets;
  * `src/gql.rs`   — market query variable structures;
  * `src/app.rs`   — collection store, message handlers, load/save logic.

Rust `BTreeMap<ItemOptionType, bool>` is modelled as an association list kept
sorted by the key ordinal (the derived `Ord` on the enum); `Arc<Mutex<..>>`
wrappers are value-transparent (serde serializes through both), so they are
dropped in the embedding, and mutation through a shared item handle is
modelled as an in-place functional update of the owning collection.
Fallible operations (Rust `panic!` / `unwrap`) return `Option`.
-/

/-! ### items.rs: ItemType -/

/-- `enum ItemType { Helm, Armor, Pants, Gloves, Boots }` (items.rs). -/
inductive ItemType where
  | Helm
  | Armor
  | Pants
  | Gloves
  | Boots
deriving DecidableEq

/-- `impl Display for ItemType` (items.rs lines 35-46). -/
def ItemType.toDisplayString : ItemType → String
  | .Helm => "Helm"
  | .Armor => "Armor"
  | .Pants => "Pants"
  | .Gloves => "Gloves"
  | .Boots => "Boots"

/-- `impl From<String> for ItemType` (items.rs lines 21-33); the
`panic!` branch on an unknown string is modelled as `none`. -/
def ItemType.fromString : String → Option ItemType
  | "Helm" => some .Helm
  | "Armor" => some .Armor
  | "Pants" => some .Pants
  | "Gloves" => some .Gloves
  | "Boots" => some .Boots
  | _ => none

/-! ### items.rs: ItemOptionType and the option map -/

/-- `enum ItemOptionType { MH = 0, SD = 1, DD = 2, Ref = 3, Dsr = 4, Zen = 5 }`. -/
inductive ItemOptionType where
  | MH
  | SD
  | DD
  | Ref
  | Dsr
  | Zen
deriving DecidableEq

/-- The explicit discriminants of `ItemOptionType`, which are also the order
used by the derived `Ord` instance (and hence by the `BTreeMap`). -/
def ItemOptionType.ord : ItemOptionType → Nat
  | .MH => 0
  | .SD => 1
  | .DD => 2
  | .Ref => 3
  | .Dsr => 4
  | .Zen => 5

/-- The six option kinds in ordinal order. -/
def sixOptionKinds : List ItemOptionType :=
  [.MH, .SD, .DD, .Ref, .Dsr, .Zen]

/-- `BTreeMap::insert` on the association-list model of
`BTreeMap<ItemOptionType, bool>`: keeps the list sorted by key ordinal and
replaces the value of an already-present key. -/
def insertOption :
    List (ItemOptionType × Bool) → ItemOptionType → Bool →
      List (ItemOptionType × Bool)
  | [], k, b => [(k, b)]
  | (k0, b0) :: rest, k, b =>
    if k.ord < k0.ord then (k, b) :: (k0, b0) :: rest
    else if k.ord = k0.ord then (k, b) :: rest
    else (k0, b0) :: insertOption rest k b

/-- `BTreeMap::get` on the association-list model. -/
def lookupOption :
    List (ItemOptionType × Bool) → ItemOptionType → Option Bool
  | [], _ => none
  | (k0, b0) :: rest, k => if k = k0 then some b0 else lookupOption rest k

/-- `pub struct ItemOptions(pub BTreeMap<ItemOption, ItemHasOption>)`. -/
structure ItemOptions where
  entries : List (ItemOptionType × Bool)
deriving DecidableEq

/-- Map insertion lifted to `ItemOptions`. -/
def ItemOptions.insert (o : ItemOptions) (k : ItemOptionType) (b : Bool) :
    ItemOptions :=
  ⟨insertOption o.entries k b⟩

/-- Map lookup lifted to `ItemOptions`. -/
def ItemOptions.get (o : ItemOptions) (k : ItemOptionType) : Option Bool :=
  lookupOption o.entries k

/-- The key list of the option map, in map (ordinal) order. -/
def ItemOptions.keys (o : ItemOptions) : List ItemOptionType :=
  o.entries.map Prod.fst

/-- `impl Default for ItemOptions` (items.rs lines 78-91): the six inserts,
in source order, into an empty map. -/
def ItemOptions.default : ItemOptions :=
  ((((((ItemOptions.mk []).insert .MH false).insert .SD false).insert
      .DD false).insert .Ref false).insert .Dsr false).insert .Zen false

/-! ### items.rs: Item -/

/-- `pub struct Item { options: Arc<Mutex<ItemOptions>>, item_type: Option<ItemType>,
name: Option<String> }`. -/
structure Item where
  options : ItemOptions
  item_type : Option ItemType
  name : Option String

/-- `Item::new(name, item_type)` (items.rs lines 100-108). -/
def Item.new (name : String) (item_type : ItemType) : Item :=
  { options := ItemOptions.default
    item_type := some item_type
    name := some name }

/-- The body of `PlayerCollection::update_class_item` (app.rs lines 129-140)
as it acts on the addressed item: `options.lock().unwrap().0.insert(option, enabled)`. -/
def Item.setOption (it : Item) (k : ItemOptionType) (b : Bool) : Item :=
  { it with options := it.options.insert k b }

/-- The (kind, enabled) pairs in map order, as iterated by the view code
(`options.lock().unwrap().0.clone()` in app.rs). -/
def Item.displayOptions (it : Item) : List (ItemOptionType × Bool) :=
  it.options.entries

/-! ### gql.rs: query variable structures -/

namespace Gql

/-- `pub struct Filter` (gql.rs lines 11-22). The `item_type` field is the
Rust field serde-renamed to `type` on the wire. -/
structure Filter where
  dd : Option (List Nat)
  dsr : Option (List Nat)
  iml : Option (List Nat)
  imsd : Option (List Nat)
  izdr : Option (List Nat)
  rd : Option (List Nat)
  item_type : Option (List String)
  name : Option String

/-- `pub struct Sort { field: String, sort_type: String }` (gql.rs lines
24-29). Named `MarketSort` because `Sort` is reserved in Lean. -/
structure MarketSort where
  field : String
  sort_type : String

/-- `pub struct Vars` (gql.rs lines 3-9). -/
structure Vars where
  filter : Filter
  limit : Nat
  offset : Nat
  sort : MarketSort

/-- `pub struct Currency` (gql.rs lines 67-74). -/
structure Currency where
  id : Option Nat
  code : Option String
  currency_type : Option String
  title : Option String

/-- `pub struct Prices` (gql.rs lines 60-65). -/
structure Prices where
  value : Option Float
  currency : Currency

/-- `pub struct Currencies` (gql.rs lines 76-85). -/
structure Currencies where
  id : Option Nat
  code : Option String
  currencies_type : Option String
  title : Option String
  is_available_for_lots : Option Bool

/-- `pub struct Item` (gql.rs lines 44-58): one market lot. -/
structure Item where
  id : Option String
  source : Option String
  is_mine : Option Bool
  item_type : Option String
  gear_score : Option Nat
  has_pending_counter_offer : Option Bool
  prices : List Prices
  currencies : Option (List Currencies)

/-- `pub struct Pagination` (gql.rs lines 87-93). -/
structure Pagination where
  total : Nat
  current_page : Nat
  next_page_exists : Bool

/-- `pub struct Lots` (gql.rs lines 36-42). -/
structure Lots where
  lots : List Item
  pagination : Pagination

/-- `pub struct Data { lots: Lots }` (gql.rs lines 31-34). -/
structure Data where
  lots : Lots

end Gql

/-! ### items.rs: the market query builder -/

/-- Rust `str::to_lowercase` as used on the ASCII slot-type strings:
character-wise lowercasing. -/
def toLowercase (s : String) : String :=
  ⟨s.data.map Char.toLower⟩

/-- One option filter field of `Item::generate_gql_vars`:
`options.0.get(&kind).and_then(|has| if *has { Some(vec![0,1,2,3,4]) } else { None })`. -/
def optionFilterValue (o : ItemOptions) (k : ItemOptionType) :
    Option (List Nat) :=
  match o.get k with
  | some true => some [0, 1, 2, 3, 4]
  | _ => none

/-- `Item::generate_gql_vars` (items.rs lines 155-215). The source unwraps
`self.item_type`; an item without a slot type would panic, modelled as `none`. -/
def Item.generate_gql_vars (it : Item) : Option Gql.Vars :=
  match it.item_type with
  | none => none
  | some ty =>
    some
      { filter :=
          { dd := optionFilterValue it.options .DD
            dsr := optionFilterValue it.options .Dsr
            iml := optionFilterValue it.options .MH
            imsd := optionFilterValue it.options .SD
            izdr := optionFilterValue it.options .Zen
            rd := optionFilterValue it.options .Ref
            item_type := some [toLowercase ty.toDisplayString]
            name := it.name }
        limit := 200
        offset := 0
        sort :=
          { field := "LOT_FIELD_MIN_PRICE"
            sort_type := "SORT_TYPE_ASC" } }

/-- The filter field that `generate_gql_vars` assigns to each option kind
(MH→iml, SD→imsd, DD→dd, Ref→rd, Dsr→dsr, Zen→izdr). -/
def Gql.Filter.fieldOf (f : Gql.Filter) : ItemOptionType → Option (List Nat)
  | .MH => f.iml
  | .SD => f.imsd
  | .DD => f.dd
  | .Ref => f.rd
  | .Dsr => f.dsr
  | .Zen => f.izdr

/-! ### items.rs: AllSets and the catalog -/

/-- `pub enum AllSets` (items.rs lines 281-333): the 44 set names. -/
inductive AllSets where
  | Pad
  | Bone
  | Sphinx
  | Legendary
  | GrandSoul
  | DarkSoul
  | VenomMist
  | Leather
  | Bronze
  | Scale
  | Brass
  | Plate
  | Dragon
  | BlackDragon
  | DarkPhoenix
  | GreatDragon
  | DragonKnight
  | Vine
  | Silk
  | Wind
  | Spirit
  | Guardian
  | HolySpirit
  | RedSpirit
  | SylphidRay
  | StormCrow
  | ThunderHawk
  | Hurricane
  | Volcano
  | LightPlate
  | Adamantine
  | DarkSteel
  | DarkMaster
  | Sunlight
  | ViolentWind
  | RedWinged
  | Ancient
  | Demonic
  | StormBlitz
  | Succubus
  | SacredFire
  | StormZahard
  | PiercingGrove
  | PhoenixSoul
deriving DecidableEq

/-- `impl Display for AllSets` (items.rs lines 335-385): the human-readable
label of a set. -/
def AllSets.toDisplayString : AllSets → String
  | .Pad => "Pad"
  | .Bone => "Bone"
  | .Sphinx => "Sphinx"
  | .Legendary => "Legendary"
  | .GrandSoul => "Grand Soul"
  | .DarkSoul => "Dark Soul"
  | .VenomMist => "Venom Mist"
  | .Leather => "Leather"
  | .Bronze => "Bronze"
  | .Scale => "Scale"
  | .Brass => "Brass"
  | .Plate => "Plate"
  | .Dragon => "Dragon"
  | .BlackDragon => "Black Dragon"
  | .DarkPhoenix => "Dark Phoenix"
  | .GreatDragon => "Great Dragon"
  | .DragonKnight => "Dragon Knight"
  | .Vine => "Vine"
  | .Silk => "Silk"
  | .Wind => "Wind"
  | .Spirit => "Spirit"
  | .Guardian => "Guardian"
  | .HolySpirit => "Holy Spirit"
  | .RedSpirit => "Red Spirit"
  | .SylphidRay => "Sylphid Ray"
  | .StormCrow => "Storm Crow"
  | .ThunderHawk => "Thunder Hawk"
  | .Hurricane => "Hurricane"
  | .Volcano => "Volcano"
  | .LightPlate => "Light Plate"
  | .Adamantine => "Adamantine"
  | .DarkSteel => "Dark Steel"
  | .DarkMaster => "Dark Master"
  | .Sunlight => "Sunlight"
  | .ViolentWind => "Violent Wind"
  | .RedWinged => "Red Winged"
  | .Ancient => "Ancient"
  | .Demonic => "Demonic"
  | .StormBlitz => "Storm Blitz"
  | .Succubus => "Succubus"
  | .SacredFire => "Sacred Fire"
  | .StormZahard => "Storm Zahard"
  | .PiercingGrove => "Piercing Grove"
  | .PhoenixSoul => "Phoenix Soul"

/-- `impl From<String> for AllSets` (items.rs lines 387-444); the `panic!`
branch on an unknown label is modelled as `none`. -/
def AllSets.fromString : String → Option AllSets
  | "Pad" => some .Pad
  | "Bone" => some .Bone
  | "Sphinx" => some .Sphinx
  | "Legendary" => some .Legendary
  | "Grand Soul" => some .GrandSoul
  | "Dark Soul" => some .DarkSoul
  | "Venom Mist" => some .VenomMist
  | "Leather" => some .Leather
  | "Bronze" => some .Bronze
  | "Scale" => some .Scale
  | "Brass" => some .Brass
  | "Plate" => some .Plate
  | "Dragon" => some .Dragon
  | "Black Dragon" => some .BlackDragon
  | "Dark Phoenix" => some .DarkPhoenix
  | "Great Dragon" => some .GreatDragon
  | "Dragon Knight" => some .DragonKnight
  | "Vine" => some .Vine
  | "Silk" => some .Silk
  | "Wind" => some .Wind
  | "Spirit" => some .Spirit
  | "Guardian" => some .Guardian
  | "Holy Spirit" => some .HolySpirit
  | "Red Spirit" => some .RedSpirit
  | "Sylphid Ray" => some .SylphidRay
  | "Storm Crow" => some .StormCrow
  | "Thunder Hawk" => some .ThunderHawk
  | "Hurricane" => some .Hurricane
  | "Volcano" => some .Volcano
  | "Light Plate" => some .LightPlate
  | "Adamantine" => some .Adamantine
  | "Dark Steel" => some .DarkSteel
  | "Dark Master" => some .DarkMaster
  | "Sunlight" => some .Sunlight
  | "Violent Wind" => some .ViolentWind
  | "Red Winged" => some .RedWinged
  | "Ancient" => some .Ancient
  | "Demonic" => some .Demonic
  | "Storm Blitz" => some .StormBlitz
  | "Succubus" => some .Succubus
  | "Sacred Fire" => some .SacredFire
  | "Storm Zahard" => some .StormZahard
  | "Piercing Grove" => some .PiercingGrove
  | "Phoenix Soul" => some .PhoenixSoul
  | _ => none

/-! ### items.rs: SetItems -/

/-- The `[Arc<Mutex<Item>>; 5]` field of `SetItems`: exactly five items, in
slot order Helm, Armor, Pants, Gloves, Boots. -/
structure ItemsArray where
  i0 : Item
  i1 : Item
  i2 : Item
  i3 : Item
  i4 : Item

/-- `pub struct SetItems { set_string: String, set: AllSets, items: [...; 5] }`. -/
structure SetItems where
  set_string : String
  set : AllSets
  items : ItemsArray

/-- `SetItems::new(set_name)` (items.rs lines 238-267): all five items are
constructed with `format!("{}", set_name)` — the display label — as name. -/
def SetItems.new (set_name : AllSets) : SetItems :=
  { set_string := set_name.toDisplayString
    set := set_name
    items :=
      { i0 := Item.new set_name.toDisplayString .Helm
        i1 := Item.new set_name.toDisplayString .Armor
        i2 := Item.new set_name.toDisplayString .Pants
        i3 := Item.new set_name.toDisplayString .Gloves
        i4 := Item.new set_name.toDisplayString .Boots } }

/-- The five items of a `SetItems` as a list, in slot order. -/
def SetItems.itemsList (s : SetItems) : List Item :=
  [s.items.i0, s.items.i1, s.items.i2, s.items.i3, s.items.i4]

/-- `pub enum ClassSets` (items.rs lines 269-278). -/
inductive ClassSets where
  | DarkWizard (sets : List SetItems)
  | DarkKnight (sets : List SetItems)
  | Elf (sets : List SetItems)
  | MagicGladiator (sets : List SetItems)
  | DarkLord (sets : List SetItems)
  | Summoner (sets : List SetItems)
  | RageFighter (sets : List SetItems)

/-- The payload of a `ClassSets` value. -/
def ClassSets.setsOf : ClassSets → List SetItems
  | .DarkWizard s => s
  | .DarkKnight s => s
  | .Elf s => s
  | .MagicGladiator s => s
  | .DarkLord s => s
  | .Summoner s => s
  | .RageFighter s => s

/-- Apply a function to the payload of a `ClassSets` value. -/
def ClassSets.modifySets (f : List SetItems → List SetItems) :
    ClassSets → ClassSets
  | .DarkWizard s => .DarkWizard (f s)
  | .DarkKnight s => .DarkKnight (f s)
  | .Elf s => .Elf (f s)
  | .MagicGladiator s => .MagicGladiator (f s)
  | .DarkLord s => .DarkLord (f s)
  | .Summoner s => .Summoner (f s)
  | .RageFighter s => .RageFighter (f s)

/-- `pub struct PlayerCollection { collection: Vec<ClassSets> }` (app.rs). -/
structure PlayerCollection where
  collection : List ClassSets

/-- `impl Default for PlayerCollection` (app.rs lines 46-127): the full
default catalog, classes and their sets in source order. -/
def PlayerCollection.default : PlayerCollection :=
  { collection :=
      [ .DarkWizard
          [ SetItems.new .Pad, SetItems.new .Bone, SetItems.new .Sphinx,
            SetItems.new .Legendary, SetItems.new .GrandSoul,
            SetItems.new .DarkSoul, SetItems.new .VenomMist ],
        .DarkKnight
          [ SetItems.new .Leather, SetItems.new .Bronze, SetItems.new .Scale,
            SetItems.new .Brass, SetItems.new .Plate, SetItems.new .Dragon,
            SetItems.new .BlackDragon, SetItems.new .DarkPhoenix,
            SetItems.new .GreatDragon, SetItems.new .DragonKnight ],
        .Elf
          [ SetItems.new .Vine, SetItems.new .Silk, SetItems.new .Wind,
            SetItems.new .Spirit, SetItems.new .Guardian,
            SetItems.new .HolySpirit, SetItems.new .RedSpirit ],
        .Summoner
          [ SetItems.new .ViolentWind, SetItems.new .RedWinged,
            SetItems.new .Ancient, SetItems.new .Demonic,
            SetItems.new .StormBlitz, SetItems.new .Succubus ],
        .MagicGladiator
          [ SetItems.new .Pad, SetItems.new .Leather, SetItems.new .Bronze,
            SetItems.new .Bone, SetItems.new .Scale, SetItems.new .Sphinx,
            SetItems.new .Brass, SetItems.new .Plate,
            SetItems.new .Legendary, SetItems.new .Dragon,
            SetItems.new .StormCrow, SetItems.new .ThunderHawk,
            SetItems.new .Hurricane, SetItems.new .Volcano ],
        .DarkLord
          [ SetItems.new .Leather, SetItems.new .Bronze, SetItems.new .Scale,
            SetItems.new .LightPlate, SetItems.new .Adamantine,
            SetItems.new .DarkSteel, SetItems.new .DarkMaster,
            SetItems.new .Sunlight ],
        .RageFighter
          [ SetItems.new .Leather, SetItems.new .Scale, SetItems.new .Brass,
            SetItems.new .Plate, SetItems.new .SacredFire,
            SetItems.new .StormZahard, SetItems.new .PiercingGrove,
            SetItems.new .PhoenixSoul ] ] }

/-! ### app.rs: application state and message handlers -/

/-- The collection-related state of `AppModel` (app.rs lines 144-163):
the loaded collection, the selected set index, and the transient offer
list `offers: (String, Vec<gql::Item>)` — source-item label plus lots. -/
structure AppState where
  collections : PlayerCollection
  current_set_index : Nat
  offers : String × List Gql.Item

/-- Handler of `Message::ClearOffers` (app.rs lines 513-515):
`self.offers.1.clear()` — the label is kept, the lot list is emptied. -/
def handleClearOffers (st : AppState) : AppState :=
  { st with offers := (st.offers.fst, []) }

/-- Handler of `Message::UpdateCurrentSet` (app.rs lines 500-502). -/
def handleUpdateCurrentSet (st : AppState) (index : Nat) : AppState :=
  { st with current_set_index := index }

/-- Handler of `Message::SearchMarket` (app.rs lines 516-540): the handler
builds the query and variables from the item (`generate_gql_vars`, modelled
above) and spawns the network task; the application state itself is returned
unchanged — in particular the offer list is not cleared here. -/
def handleSearchMarket (st : AppState) (item : Item) : AppState :=
  let _vars := item.generate_gql_vars
  st

/-- Handler of `Message::MarketSearchResult` (app.rs lines 542-550):
`for lot in data.lots.lots { self.offers.0 = item.clone(); self.offers.1.push(lot); }`. -/
def handleMarketSearchResult (st : AppState) (item : String)
    (data : Gql.Data) : AppState :=
  data.lots.lots.foldl
    (fun s lot => { s with offers := (item, s.offers.snd ++ [lot]) }) st

/-- The collection-loading logic of `AppModel::init` (app.rs lines 235-247),
parameterized by the external RON parser (`ron::from_str`):
a missing/unreadable file reads as the empty string
(`read_to_string(..).unwrap_or_default()`), an empty string yields the
default catalog, and a parse failure falls back to the default catalog
(`unwrap_or_default()`). The result type has no error channel: no failure
is surfaced to the caller. -/
def loadCollection (parse : String → Option PlayerCollection)
    (fileContents : Option String) : PlayerCollection :=
  let data := fileContents.getD ""
  if data.isEmpty then PlayerCollection.default
  else (parse data).getD PlayerCollection.default

/-! ### Serialization model

`Message::SaveCollections` serializes the collection with
`ron::ser::to_string_pretty` and `AppModel::init` deserializes with
`ron::from_str` through the derived serde instances. The serde/RON data
model is embedded as the value tree `Ron`; the derived `Serialize` /
`Deserialize` implementations of the repository's types are embedded as the
`toRon` / `fromRon` functions below (structs become records in declaration
order, enum unit variants their identifier name, newtype variants their name
plus payload, `BTreeMap` a map deserialized by successive inserts,
`Arc`/`Mutex` transparent, `[T; 5]` a five-element sequence). The textual
pretty-printing/parsing of a `Ron` value tree is the ron crate's side of the
boundary and is treated as the identity on value trees. -/

/-- A serde/RON value tree. -/
inductive Ron where
  | rbool (b : Bool)
  | rstr (s : String)
  | ropt (o : Option Ron)
  | rseq (xs : List Ron)
  | rmap (entries : List (Ron × Ron))
  | rvariant (name : String) (payload : Option Ron)
  | rrecord (fields : List (String × Ron))

/-- Decode every element of a list, failing if any element fails
(the semantics serde uses for sequences). -/
def traverseDecode (f : β → Option α) : List β → Option (List α)
  | [] => some []
  | x :: xs =>
    match f x, traverseDecode f xs with
    | some a, some rest => some (a :: rest)
    | _, _ => none

/-- Serde variant name of an `ItemOptionType` value (the Rust identifier). -/
def ItemOptionType.serdeName : ItemOptionType → String
  | .MH => "MH"
  | .SD => "SD"
  | .DD => "DD"
  | .Ref => "Ref"
  | .Dsr => "Dsr"
  | .Zen => "Zen"

/-- Serde variant-name lookup for `ItemOptionType`. -/
def ItemOptionType.fromSerdeName : String → Option ItemOptionType
  | "MH" => some .MH
  | "SD" => some .SD
  | "DD" => some .DD
  | "Ref" => some .Ref
  | "Dsr" => some .Dsr
  | "Zen" => some .Zen
  | _ => none

/-- Serde variant name of an `ItemType` value (the Rust identifier; for this
enum it coincides with the display string). -/
def ItemType.serdeName : ItemType → String
  | .Helm => "Helm"
  | .Armor => "Armor"
  | .Pants => "Pants"
  | .Gloves => "Gloves"
  | .Boots => "Boots"

/-- Serde variant-name lookup for `ItemType`. -/
def ItemType.fromSerdeName : String → Option ItemType
  | "Helm" => some .Helm
  | "Armor" => some .Armor
  | "Pants" => some .Pants
  | "Gloves" => some .Gloves
  | "Boots" => some .Boots
  | _ => none

/-- Serde variant name of an `AllSets` value (the Rust identifier — NOT the
display label: `GrandSoul` serializes as "GrandSoul", not "Grand Soul"). -/
def AllSets.serdeName : AllSets → String
  | .Pad => "Pad"
  | .Bone => "Bone"
  | .Sphinx => "Sphinx"
  | .Legendary => "Legendary"
  | .GrandSoul => "GrandSoul"
  | .DarkSoul => "DarkSoul"
  | .VenomMist => "VenomMist"
  | .Leather => "Leather"
  | .Bronze => "Bronze"
  | .Scale => "Scale"
  | .Brass => "Brass"
  | .Plate => "Plate"
  | .Dragon => "Dragon"
  | .BlackDragon => "BlackDragon"
  | .DarkPhoenix => "DarkPhoenix"
  | .GreatDragon => "GreatDragon"
  | .DragonKnight => "DragonKnight"
  | .Vine => "Vine"
  | .Silk => "Silk"
  | .Wind => "Wind"
  | .Spirit => "Spirit"
  | .Guardian => "Guardian"
  | .HolySpirit => "HolySpirit"
  | .RedSpirit => "RedSpirit"
  | .SylphidRay => "SylphidRay"
  | .StormCrow => "StormCrow"
  | .ThunderHawk => "ThunderHawk"
  | .Hurricane => "Hurricane"
  | .Volcano => "Volcano"
  | .LightPlate => "LightPlate"
  | .Adamantine => "Adamantine"
  | .DarkSteel => "DarkSteel"
  | .DarkMaster => "DarkMaster"
  | .Sunlight => "Sunlight"
  | .ViolentWind => "ViolentWind"
  | .RedWinged => "RedWinged"
  | .Ancient => "Ancient"
  | .Demonic => "Demonic"
  | .StormBlitz => "StormBlitz"
  | .Succubus => "Succubus"
  | .SacredFire => "SacredFire"
  | .StormZahard => "StormZahard"
  | .PiercingGrove => "PiercingGrove"
  | .PhoenixSoul => "PhoenixSoul"

/-- Serde variant-name lookup for `AllSets`. -/
def AllSets.fromSerdeName : String → Option AllSets
  | "Pad" => some .Pad
  | "Bone" => some .Bone
  | "Sphinx" => some .Sphinx
  | "Legendary" => some .Legendary
  | "GrandSoul" => some .GrandSoul
  | "DarkSoul" => some .DarkSoul
  | "VenomMist" => some .VenomMist
  | "Leather" => some .Leather
  | "Bronze" => some .Bronze
  | "Scale" => some .Scale
  | "Brass" => some .Brass
  | "Plate" => some .Plate
  | "Dragon" => some .Dragon
  | "BlackDragon" => some .BlackDragon
  | "DarkPhoenix" => some .DarkPhoenix
  | "GreatDragon" => some .GreatDragon
  | "DragonKnight" => some .DragonKnight
  | "Vine" => some .Vine
  | "Silk" => some .Silk
  | "Wind" => some .Wind
  | "Spirit" => some .Spirit
  | "Guardian" => some .Guardian
  | "HolySpirit" => some .HolySpirit
  | "RedSpirit" => some .RedSpirit
  | "SylphidRay" => some .SylphidRay
  | "StormCrow" => some .StormCrow
  | "ThunderHawk" => some .ThunderHawk
  | "Hurricane" => some .Hurricane
  | "Volcano" => some .Volcano
  | "LightPlate" => some .LightPlate
  | "Adamantine" => some .Adamantine
  | "DarkSteel" => some .DarkSteel
  | "DarkMaster" => some .DarkMaster
  | "Sunlight" => some .Sunlight
  | "ViolentWind" => some .ViolentWind
  | "RedWinged" => some .RedWinged
  | "Ancient" => some .Ancient
  | "Demonic" => some .Demonic
  | "StormBlitz" => some .StormBlitz
  | "Succubus" => some .Succubus
  | "SacredFire" => some .SacredFire
  | "StormZahard" => some .StormZahard
  | "PiercingGrove" => some .PiercingGrove
  | "PhoenixSoul" => some .PhoenixSoul
  | _ => none

/-- Serialization of `ItemOptions`: a newtype struct over a `BTreeMap`
serializes as the map, keys as unit variants. -/
def ItemOptions.toRon (o : ItemOptions) : Ron :=
  .rmap (o.entries.map fun e => (.rvariant e.fst.serdeName none, .rbool e.snd))

/-- Decode one map entry of an `ItemOptions` serialization. -/
def decodeOptionEntry : Ron × Ron → Option (ItemOptionType × Bool)
  | (.rvariant n none, .rbool b) =>
    (ItemOptionType.fromSerdeName n).map fun k => (k, b)
  | _ => none

/-- Deserialization of `ItemOptions`: read the entries in order and insert
them successively into an empty map, as `BTreeMap::deserialize` does. -/
def ItemOptions.fromRon : Ron → Option ItemOptions
  | .rmap es =>
    (traverseDecode decodeOptionEntry es).map fun l =>
      ⟨l.foldl (fun m e => insertOption m e.fst e.snd) []⟩
  | _ => none

/-- Decode an `Option<ItemType>` field value. -/
def decodeOptItemType : Ron → Option (Option ItemType)
  | .ropt none => some none
  | .ropt (some (.rvariant s none)) => (ItemType.fromSerdeName s).map some
  | _ => none

/-- Decode an `Option<String>` field value. -/
def decodeOptString : Ron → Option (Option String)
  | .ropt none => some none
  | .ropt (some (.rstr s)) => some (some s)
  | _ => none

/-- Serialization of `Item` (fields in declaration order; `Arc<Mutex<..>>`
is serialized through). -/
def Item.toRon (it : Item) : Ron :=
  .rrecord
    [ ("options", it.options.toRon),
      ("item_type", .ropt (it.item_type.map fun t => .rvariant t.serdeName none)),
      ("name", .ropt (it.name.map .rstr)) ]

/-- Deserialization of `Item`. -/
def Item.fromRon : Ron → Option Item
  | .rrecord [("options", o), ("item_type", t), ("name", n)] =>
    match ItemOptions.fromRon o, decodeOptItemType t, decodeOptString n with
    | some opts, some ty, some nm => some ⟨opts, ty, nm⟩
    | _, _, _ => none
  | _ => none

/-- Serialization of the five-item array: a five-element sequence. -/
def ItemsArray.toRon (a : ItemsArray) : Ron :=
  .rseq [a.i0.toRon, a.i1.toRon, a.i2.toRon, a.i3.toRon, a.i4.toRon]

/-- Deserialization of the five-item array: exactly five elements. -/
def ItemsArray.fromRon : Ron → Option ItemsArray
  | .rseq [r0, r1, r2, r3, r4] =>
    match Item.fromRon r0, Item.fromRon r1, Item.fromRon r2,
        Item.fromRon r3, Item.fromRon r4 with
    | some a, some b, some c, some d, some e => some ⟨a, b, c, d, e⟩
    | _, _, _, _, _ => none
  | _ => none

/-- Serialization of `SetItems` (fields in declaration order). -/
def SetItems.toRon (s : SetItems) : Ron :=
  .rrecord
    [ ("set_string", .rstr s.set_string),
      ("set", .rvariant s.set.serdeName none),
      ("items", s.items.toRon) ]

/-- Deserialization of `SetItems`. -/
def SetItems.fromRon : Ron → Option SetItems
  | .rrecord [("set_string", .rstr str), ("set", .rvariant n none), ("items", r)] =>
    match AllSets.fromSerdeName n, ItemsArray.fromRon r with
    | some a, some arr => some ⟨str, a, arr⟩
    | _, _ => none
  | _ => none

/-- Serialization of `ClassSets`: a newtype variant holding the sequence of
set entries. -/
def ClassSets.toRon : ClassSets → Ron
  | .DarkWizard s => .rvariant "DarkWizard" (some (.rseq (s.map SetItems.toRon)))
  | .DarkKnight s => .rvariant "DarkKnight" (some (.rseq (s.map SetItems.toRon)))
  | .Elf s => .rvariant "Elf" (some (.rseq (s.map SetItems.toRon)))
  | .MagicGladiator s =>
    .rvariant "MagicGladiator" (some (.rseq (s.map SetItems.toRon)))
  | .DarkLord s => .rvariant "DarkLord" (some (.rseq (s.map SetItems.toRon)))
  | .Summoner s => .rvariant "Summoner" (some (.rseq (s.map SetItems.toRon)))
  | .RageFighter s =>
    .rvariant "RageFighter" (some (.rseq (s.map SetItems.toRon)))

/-- Deserialization of `ClassSets`. -/
def ClassSets.fromRon : Ron → Option ClassSets
  | .rvariant "DarkWizard" (some (.rseq rs)) =>
    (traverseDecode SetItems.fromRon rs).map ClassSets.DarkWizard
  | .rvariant "DarkKnight" (some (.rseq rs)) =>
    (traverseDecode SetItems.fromRon rs).map ClassSets.DarkKnight
  | .rvariant "Elf" (some (.rseq rs)) =>
    (traverseDecode SetItems.fromRon rs).map ClassSets.Elf
  | .rvariant "MagicGladiator" (some (.rseq rs)) =>
    (traverseDecode SetItems.fromRon rs).map ClassSets.MagicGladiator
  | .rvariant "DarkLord" (some (.rseq rs)) =>
    (traverseDecode SetItems.fromRon rs).map ClassSets.DarkLord
  | .rvariant "Summoner" (some (.rseq rs)) =>
    (traverseDecode SetItems.fromRon rs).map ClassSets.Summoner
  | .rvariant "RageFighter" (some (.rseq rs)) =>
    (traverseDecode SetItems.fromRon rs).map ClassSets.RageFighter
  | _ => none

/-- Serialization of `PlayerCollection`. -/
def PlayerCollection.toRon (c : PlayerCollection) : Ron :=
  .rrecord [("collection", .rseq (c.collection.map ClassSets.toRon))]

/-- Deserialization of `PlayerCollection`. -/
def PlayerCollection.fromRon : Ron → Option PlayerCollection
  | .rrecord [("collection", .rseq rs)] =>
    (traverseDecode ClassSets.fromRon rs).map PlayerCollection.mk
  | _ => none

/-! ### Option toggles addressed through the collection

In the application, `Message::UpdateItem` carries an `Arc<Mutex<Item>>`
aliasing an item stored inside `AppModel::collections`, and
`PlayerCollection::update_class_item` mutates that shared item in place.
In the value embedding the shared handle is the item's position
(class index, set index, slot index) and the mutation is a functional
update of the collection at that position. -/

/-- Update the element at an index, leaving the list unchanged when the
index is out of range. -/
def modifyAt (l : List α) (i : Nat) (f : α → α) : List α :=
  match l, i with
  | [], _ => []
  | x :: xs, 0 => f x :: xs
  | x :: xs, n + 1 => x :: modifyAt xs n f

/-- Update one of the five slots of an item array. -/
def ItemsArray.modifyIdx (a : ItemsArray) (i : Nat) (f : Item → Item) :
    ItemsArray :=
  match i with
  | 0 => { a with i0 := f a.i0 }
  | 1 => { a with i1 := f a.i1 }
  | 2 => { a with i2 := f a.i2 }
  | 3 => { a with i3 := f a.i3 }
  | 4 => { a with i4 := f a.i4 }
  | _ => a

/-- One option toggle (`update_class_item`) addressed at (class index,
set index, slot index). -/
def PlayerCollection.toggleAt (p : PlayerCollection) (ci si ii : Nat)
    (k : ItemOptionType) (b : Bool) : PlayerCollection :=
  ⟨modifyAt p.collection ci fun cs =>
    cs.modifySets fun sets =>
      modifyAt sets si fun s =>
        { s with items := s.items.modifyIdx ii fun it => it.setOption k b }⟩

/-- A toggle instruction: class index, set index, slot index, kind, value. -/
def Toggle : Type := Nat × Nat × Nat × ItemOptionType × Bool

/-- Apply a sequence of option toggles to a collection. -/
def applyToggles (p : PlayerCollection) (ops : List Toggle) :
    PlayerCollection :=
  ops.foldl
    (fun q op => q.toggleAt op.fst op.snd.fst op.snd.snd.fst
      op.snd.snd.snd.fst op.snd.snd.snd.snd) p

/-! ### Well-formedness: the BTreeMap key invariant

Every Rust `ItemOptions` value is a genuine `BTreeMap` holding exactly the
six keys (created by `ItemOptions::default`, mutated only by `insert` of one
of the six kinds); in the embedding this is the predicate `WF`. -/

/-- The option map holds exactly the six kinds, in ordinal order. -/
def ItemOptions.WF (o : ItemOptions) : Prop :=
  o.keys = sixOptionKinds

/-- An item whose option map is well-formed. -/
def Item.WF (it : Item) : Prop :=
  it.options.WF

/-- All five items of the array are well-formed. -/
def ItemsArray.WF (a : ItemsArray) : Prop :=
  a.i0.WF ∧ a.i1.WF ∧ a.i2.WF ∧ a.i3.WF ∧ a.i4.WF

/-- All items of a set entry are well-formed. -/
def SetItems.WF (s : SetItems) : Prop :=
  s.items.WF

/-- All set entries of a class are well-formed. -/
def ClassSets.WF (c : ClassSets) : Prop :=
  ∀ s ∈ c.setsOf, s.WF

/-- All classes of a collection are well-formed. -/
def PlayerCollection.WF (p : PlayerCollection) : Prop :=
  ∀ c ∈ p.collection, c.WF

/-! ### Lemmas about the option map -/

/-- The ordinal function is injective (the derived `Ord`/`Eq` on the Rust
enum agree). -/
theorem ItemOptionType.ord_injective :
    ∀ a b : ItemOptionType, a.ord = b.ord → a = b := by
  intro a b
  cases a <;> cases b <;> simp [ItemOptionType.ord]

/-- Lookup after insert: the inserted key reads the new value, every other
key is unchanged. -/
theorem lookupOption_insertOption
    (l : List (ItemOptionType × Bool)) (k : ItemOptionType) (b : Bool)
    (j : ItemOptionType) :
    lookupOption (insertOption l k b) j =
      if j = k then some b else lookupOption l j := by
  induction l with
  | nil =>
    simp [insertOption, lookupOption]
  | cons p t ih =>
    obtain ⟨k0, b0⟩ := p
    by_cases hlt : k.ord < k0.ord
    · by_cases hj : j = k
      · subst hj
        simp [insertOption, hlt, lookupOption]
      · simp [insertOption, hlt, lookupOption, hj]
    · by_cases heq : k.ord = k0.ord
      · have hk : k = k0 := ItemOptionType.ord_injective k k0 heq
        subst hk
        by_cases hj : j = k
        · subst hj
          simp [insertOption, hlt, lookupOption]
        · simp [insertOption, hlt, lookupOption, hj]
      · have hne : k ≠ k0 := fun h => heq (by rw [h])
        by_cases hj0 : j = k0
        · subst hj0
          have hjk : j ≠ k := fun h => hne (h ▸ rfl)
          simp [insertOption, hlt, heq, lookupOption, hjk]
        · simp [insertOption, hlt, heq, lookupOption, hj0, ih]

/-- A well-formed entry list is exactly six pairs with the six kinds in
ordinal order. -/
theorem entries_shape (l : List (ItemOptionType × Bool))
    (h : l.map Prod.fst = sixOptionKinds) :
    ∃ b0 b1 b2 b3 b4 b5, l =
      [(.MH, b0), (.SD, b1), (.DD, b2), (.Ref, b3), (.Dsr, b4), (.Zen, b5)] := by
  cases l with
  | nil => simp [sixOptionKinds] at h
  | cons p0 l =>
  obtain ⟨q0, c0⟩ := p0
  simp only [List.map_cons, sixOptionKinds, List.cons.injEq] at h
  obtain ⟨rfl, h⟩ := h
  cases l with
  | nil => simp at h
  | cons p1 l =>
  obtain ⟨q1, c1⟩ := p1
  simp only [List.map_cons, List.cons.injEq] at h
  obtain ⟨rfl, h⟩ := h
  cases l with
  | nil => simp at h
  | cons p2 l =>
  obtain ⟨q2, c2⟩ := p2
  simp only [List.map_cons, List.cons.injEq] at h
  obtain ⟨rfl, h⟩ := h
  cases l with
  | nil => simp at h
  | cons p3 l =>
  obtain ⟨q3, c3⟩ := p3
  simp only [List.map_cons, List.cons.injEq] at h
  obtain ⟨rfl, h⟩ := h
  cases l with
  | nil => simp at h
  | cons p4 l =>
  obtain ⟨q4, c4⟩ := p4
  simp only [List.map_cons, List.cons.injEq] at h
  obtain ⟨rfl, h⟩ := h
  cases l with
  | nil => simp at h
  | cons p5 l =>
  obtain ⟨q5, c5⟩ := p5
  simp only [List.map_cons, List.cons.injEq] at h
  obtain ⟨rfl, h⟩ := h
  cases l with
  | nil => exact ⟨c0, c1, c2, c3, c4, c5, rfl⟩
  | cons p6 l => simp at h

/-- Inserting any of the six kinds into a well-formed entry list keeps the
key list unchanged. -/
theorem insertOption_keys (l : List (ItemOptionType × Bool))
    (h : l.map Prod.fst = sixOptionKinds) (k : ItemOptionType) (b : Bool) :
    (insertOption l k b).map Prod.fst = sixOptionKinds := by
  obtain ⟨b0, b1, b2, b3, b4, b5, rfl⟩ := entries_shape l h
  cases k <;> rfl

/-- `setOption` preserves item well-formedness. -/
theorem Item.setOption_WF (it : Item) (k : ItemOptionType) (b : Bool)
    (h : it.WF) : (it.setOption k b).WF :=
  insertOption_keys it.options.entries h k b

/-- `ItemOptions.default` is well-formed. -/
theorem itemOptionsDefault_WF : ItemOptions.default.WF := rfl

/-- Every freshly constructed item is well-formed. -/
theorem itemNew_WF (name : String) (ty : ItemType) : (Item.new name ty).WF :=
  rfl

/-! ### Well-formedness is preserved by toggles -/

/-- A pointwise-preserved predicate survives `modifyAt`. -/
theorem modifyAt_forall {α : Type} {P : α → Prop} (f : α → α)
    (hf : ∀ x, P x → P (f x)) :
    ∀ (l : List α) (i : Nat), (∀ x ∈ l, P x) → ∀ x ∈ modifyAt l i f, P x := by
  intro l
  induction l with
  | nil =>
    intro i h x hx
    simp [modifyAt] at hx
  | cons a t ih =>
    intro i h x hx
    cases i with
    | zero =>
      simp only [modifyAt, List.mem_cons] at hx
      rcases hx with rfl | hx
      · exact hf a (h a (by simp))
      · exact h x (by simp [hx])
    | succ n =>
      simp only [modifyAt, List.mem_cons] at hx
      rcases hx with rfl | hx
      · exact h x (by simp)
      · exact ih n (fun y hy => h y (by simp [hy])) x hx

/-- `modifyIdx` with a WF-preserving function preserves the array invariant. -/
theorem ItemsArray.modifyIdx_WF (a : ItemsArray) (i : Nat) (f : Item → Item)
    (hf : ∀ it, Item.WF it → Item.WF (f it)) (h : a.WF) :
    (a.modifyIdx i f).WF := by
  obtain ⟨h0, h1, h2, h3, h4⟩ := h
  match i with
  | 0 => exact ⟨hf _ h0, h1, h2, h3, h4⟩
  | 1 => exact ⟨h0, hf _ h1, h2, h3, h4⟩
  | 2 => exact ⟨h0, h1, hf _ h2, h3, h4⟩
  | 3 => exact ⟨h0, h1, h2, hf _ h3, h4⟩
  | 4 => exact ⟨h0, h1, h2, h3, hf _ h4⟩
  | n + 5 => exact ⟨h0, h1, h2, h3, h4⟩

/-- The payload of a modified class value. -/
theorem ClassSets.setsOf_modifySets (f : List SetItems → List SetItems)
    (c : ClassSets) : (c.modifySets f).setsOf = f c.setsOf := by
  cases c <;> rfl

/-- One toggle preserves collection well-formedness. -/
theorem PlayerCollection.toggleAt_WF (p : PlayerCollection)
    (ci si ii : Nat) (k : ItemOptionType) (b : Bool) (h : p.WF) :
    (p.toggleAt ci si ii k b).WF := by
  intro c hc
  refine modifyAt_forall _ ?_ p.collection ci h c hc
  intro cs hcs s hs
  rw [ClassSets.setsOf_modifySets] at hs
  refine modifyAt_forall _ ?_ cs.setsOf si hcs s hs
  intro se hse
  exact ItemsArray.modifyIdx_WF se.items ii _
    (fun it hit => Item.setOption_WF it k b hit) hse

/-- Any toggle sequence preserves collection well-formedness. -/
theorem applyToggles_WF (ops : List Toggle) :
    ∀ p : PlayerCollection, p.WF → (applyToggles p ops).WF := by
  induction ops with
  | nil => intro p h; exact h
  | cons op t ih =>
    intro p h
    exact ih _ (PlayerCollection.toggleAt_WF p _ _ _ _ _ h)

/-- Every set entry built by `SetItems::new` is well-formed. -/
theorem setItemsNew_WF (s : AllSets) : (SetItems.new s).WF :=
  ⟨rfl, rfl, rfl, rfl, rfl⟩

/-- The default catalog is well-formed. -/
theorem defaultCollection_WF : PlayerCollection.default.WF := by
  intro c hc
  simp only [PlayerCollection.default, List.mem_cons, List.not_mem_nil,
    or_false] at hc
  rcases hc with rfl | rfl | rfl | rfl | rfl | rfl | rfl <;>
    · intro s hs
      simp only [ClassSets.setsOf, List.mem_cons, List.not_mem_nil,
        or_false] at hs
      rcases hs with rfl | hs <;>
        first
          | exact setItemsNew_WF _
          | (rcases hs with rfl | hs <;>
              first
                | exact setItemsNew_WF _
                | (rcases hs with rfl | rfl | rfl | rfl | rfl | rfl | rfl |
                    rfl | rfl | rfl | rfl | rfl <;> exact setItemsNew_WF _))

/-! ### Round-trip lemmas for the serialization model -/

/-- Decoding a list whose every element encodes-then-decodes succeeds. -/
theorem traverseDecode_map {α β : Type} {f : β → Option α} {g : α → β}
    (l : List α) (h : ∀ x ∈ l, f (g x) = some x) :
    traverseDecode f (l.map g) = some l := by
  induction l with
  | nil => rfl
  | cons a t ih =>
    simp only [List.map_cons, traverseDecode]
    rw [h a (by simp), ih (fun x hx => h x (by simp [hx]))]

/-- Serde-name round trip for `ItemOptionType`. -/
theorem itemOptionTypeSerdeName_rt (k : ItemOptionType) :
    ItemOptionType.fromSerdeName k.serdeName = some k := by
  cases k <;> rfl

/-- Serde-name round trip for `ItemType`. -/
theorem itemTypeSerdeName_rt (t : ItemType) :
    ItemType.fromSerdeName t.serdeName = some t := by
  cases t <;> rfl

/-- Serde-name round trip for `AllSets`. -/
theorem allSetsSerdeName_rt (s : AllSets) :
    AllSets.fromSerdeName s.serdeName = some s := by
  cases s <;> rfl

/-- Round trip for a well-formed option map. -/
theorem itemOptionsRon_rt (o : ItemOptions) (h : o.WF) :
    ItemOptions.fromRon o.toRon = some o := by
  obtain ⟨l⟩ := o
  obtain ⟨b0, b1, b2, b3, b4, b5, rfl⟩ := entries_shape l h
  rfl

/-- Round trip for an optional slot type. -/
theorem decodeOptItemType_roundtrip (t : Option ItemType) :
    decodeOptItemType (.ropt (t.map fun x => .rvariant x.serdeName none)) =
      some t := by
  cases t with
  | none => rfl
  | some x => cases x <;> rfl

/-- Round trip for an optional string. -/
theorem decodeOptString_roundtrip (s : Option String) :
    decodeOptString (.ropt (s.map Ron.rstr)) = some s := by
  cases s <;> rfl

/-- Round trip for a well-formed item. -/
theorem itemRon_rt (it : Item) (h : it.WF) :
    Item.fromRon it.toRon = some it := by
  obtain ⟨o, t, n⟩ := it
  show Item.fromRon
      (.rrecord
        [ ("options", o.toRon),
          ("item_type", .ropt (t.map fun x => .rvariant x.serdeName none)),
          ("name", .ropt (n.map .rstr)) ]) = some ⟨o, t, n⟩
  rw [show ∀ a b c, Item.fromRon (.rrecord
      [("options", a), ("item_type", b), ("name", c)]) =
      (match ItemOptions.fromRon a, decodeOptItemType b, decodeOptString c with
        | some opts, some ty, some nm => some ⟨opts, ty, nm⟩
        | _, _, _ => none) from fun _ _ _ => rfl]
  rw [itemOptionsRon_rt o h, decodeOptItemType_roundtrip,
    decodeOptString_roundtrip]

/-- Round trip for a well-formed item array. -/
theorem itemsArrayRon_rt (a : ItemsArray) (h : a.WF) :
    ItemsArray.fromRon a.toRon = some a := by
  obtain ⟨x0, x1, x2, x3, x4⟩ := a
  obtain ⟨h0, h1, h2, h3, h4⟩ := h
  show ItemsArray.fromRon
      (.rseq [x0.toRon, x1.toRon, x2.toRon, x3.toRon, x4.toRon]) =
      some ⟨x0, x1, x2, x3, x4⟩
  rw [show ∀ r0 r1 r2 r3 r4, ItemsArray.fromRon (.rseq [r0, r1, r2, r3, r4]) =
      (match Item.fromRon r0, Item.fromRon r1, Item.fromRon r2,
          Item.fromRon r3, Item.fromRon r4 with
        | some a, some b, some c, some d, some e => some ⟨a, b, c, d, e⟩
        | _, _, _, _, _ => none) from fun _ _ _ _ _ => rfl]
  rw [itemRon_rt x0 h0, itemRon_rt x1 h1,
    itemRon_rt x2 h2, itemRon_rt x3 h3,
    itemRon_rt x4 h4]

/-- Round trip for a well-formed set entry. -/
theorem setItemsRon_rt (s : SetItems) (h : s.WF) :
    SetItems.fromRon s.toRon = some s := by
  obtain ⟨str, a, arr⟩ := s
  show SetItems.fromRon
      (.rrecord
        [ ("set_string", .rstr str),
          ("set", .rvariant a.serdeName none),
          ("items", arr.toRon) ]) = some ⟨str, a, arr⟩
  rw [show ∀ s0 n r, SetItems.fromRon (.rrecord
      [("set_string", Ron.rstr s0), ("set", .rvariant n none), ("items", r)]) =
      (match AllSets.fromSerdeName n, ItemsArray.fromRon r with
        | some x, some y => some ⟨s0, x, y⟩
        | _, _ => none) from fun _ _ _ => rfl]
  rw [allSetsSerdeName_rt, itemsArrayRon_rt arr h]

/-- Round trip for a well-formed class entry. -/
theorem classSetsRon_rt (c : ClassSets) (h : c.WF) :
    ClassSets.fromRon c.toRon = some c := by
  cases c with
  | DarkWizard s =>
    show ClassSets.fromRon (.rvariant "DarkWizard"
        (some (.rseq (s.map SetItems.toRon)))) = _
    rw [show ∀ rs, ClassSets.fromRon (.rvariant "DarkWizard" (some (.rseq rs))) =
        (traverseDecode SetItems.fromRon rs).map ClassSets.DarkWizard
      from fun _ => rfl]
    rw [traverseDecode_map s (fun x hx => setItemsRon_rt x (h x hx))]
    rfl
  | DarkKnight s =>
    show ClassSets.fromRon (.rvariant "DarkKnight"
        (some (.rseq (s.map SetItems.toRon)))) = _
    rw [show ∀ rs, ClassSets.fromRon (.rvariant "DarkKnight" (some (.rseq rs))) =
        (traverseDecode SetItems.fromRon rs).map ClassSets.DarkKnight
      from fun _ => rfl]
    rw [traverseDecode_map s (fun x hx => setItemsRon_rt x (h x hx))]
    rfl
  | Elf s =>
    show ClassSets.fromRon (.rvariant "Elf"
        (some (.rseq (s.map SetItems.toRon)))) = _
    rw [show ∀ rs, ClassSets.fromRon (.rvariant "Elf" (some (.rseq rs))) =
        (traverseDecode SetItems.fromRon rs).map ClassSets.Elf
      from fun _ => rfl]
    rw [traverseDecode_map s (fun x hx => setItemsRon_rt x (h x hx))]
    rfl
  | MagicGladiator s =>
    show ClassSets.fromRon (.rvariant "MagicGladiator"
        (some (.rseq (s.map SetItems.toRon)))) = _
    rw [show ∀ rs, ClassSets.fromRon
        (.rvariant "MagicGladiator" (some (.rseq rs))) =
        (traverseDecode SetItems.fromRon rs).map ClassSets.MagicGladiator
      from fun _ => rfl]
    rw [traverseDecode_map s (fun x hx => setItemsRon_rt x (h x hx))]
    rfl
  | DarkLord s =>
    show ClassSets.fromRon (.rvariant "DarkLord"
        (some (.rseq (s.map SetItems.toRon)))) = _
    rw [show ∀ rs, ClassSets.fromRon (.rvariant "DarkLord" (some (.rseq rs))) =
        (traverseDecode SetItems.fromRon rs).map ClassSets.DarkLord
      from fun _ => rfl]
    rw [traverseDecode_map s (fun x hx => setItemsRon_rt x (h x hx))]
    rfl
  | Summoner s =>
    show ClassSets.fromRon (.rvariant "Summoner"
        (some (.rseq (s.map SetItems.toRon)))) = _
    rw [show ∀ rs, ClassSets.fromRon (.rvariant "Summoner" (some (.rseq rs))) =
        (traverseDecode SetItems.fromRon rs).map ClassSets.Summoner
      from fun _ => rfl]
    rw [traverseDecode_map s (fun x hx => setItemsRon_rt x (h x hx))]
    rfl
  | RageFighter s =>
    show ClassSets.fromRon (.rvariant "RageFighter"
        (some (.rseq (s.map SetItems.toRon)))) = _
    rw [show ∀ rs, ClassSets.fromRon (.rvariant "RageFighter" (some (.rseq rs))) =
        (traverseDecode SetItems.fromRon rs).map ClassSets.RageFighter
      from fun _ => rfl]
    rw [traverseDecode_map s (fun x hx => setItemsRon_rt x (h x hx))]
    rfl

/-- Round trip for a well-formed collection. -/
theorem collectionRon_rt (p : PlayerCollection) (h : p.WF) :
    PlayerCollection.fromRon p.toRon = some p := by
  obtain ⟨cs⟩ := p
  show PlayerCollection.fromRon
      (.rrecord [("collection", .rseq (cs.map ClassSets.toRon))]) = some ⟨cs⟩
  rw [show ∀ rs, PlayerCollection.fromRon
      (.rrecord [("collection", Ron.rseq rs)]) =
      (traverseDecode ClassSets.fromRon rs).map PlayerCollection.mk
    from fun _ => rfl]
  rw [traverseDecode_map cs (fun x hx => classSetsRon_rt x (h x hx))]
  rfl

/-! ### Closed form of the market-result handler -/

/-- The result-handler loop appends the received lots in order and sets the
label per received lot (so leaves it alone when no lot arrives). -/
theorem marketFoldl_closedForm (label : String) (lots : List Gql.Item) :
    ∀ st : AppState,
      lots.foldl
          (fun s lot => { s with offers := (label, s.offers.snd ++ [lot]) })
          st =
        { st with offers :=
            ((if lots.isEmpty then st.offers.fst else label),
              st.offers.snd ++ lots) } := by
  induction lots with
  | nil =>
    intro st
    obtain ⟨c, i, a, b⟩ := st
    simp
  | cons lot t ih =>
    intro st
    simp only [List.foldl_cons]
    rw [ih]
    obtain ⟨c, i, a, b⟩ := st
    simp

/-- Helper lemma: each option filter field equals the enabled test. -/
theorem optionFilterValue_eq (o : ItemOptions) (k : ItemOptionType) :
    optionFilterValue o k =
      if o.get k = some true then some [0, 1, 2, 3, 4] else none := by
  rcases hg : o.get k with _ | b
  · simp [optionFilterValue, hg]
  · cases b <;> simp [optionFilterValue, hg]

/-! ### The claims -/

/-- C1: for every Item (with its slot type present, as every constructed
item has), the market query variables contain, for each of the six option
kinds, the corresponding filter field (MH→iml, SD→imsd, DD→dd, Ref→rd,
Dsr→dsr, Zen→izdr) with value [0,1,2,3,4] exactly when that option is
enabled and `none` otherwise; the type filter is the single-element list of
the lower-cased slot type, the name filter is the item's name verbatim,
limit is 200, offset is 0, and the sort is field "LOT_FIELD_MIN_PRICE"
ascending ("SORT_TYPE_ASC"). -/
theorem generate_gql_vars_correct (it : Item) (ty : ItemType)
    (h : it.item_type = some ty) :
    ∃ v : Gql.Vars, it.generate_gql_vars = some v
      ∧ (∀ k : ItemOptionType,
          v.filter.fieldOf k =
            if it.options.get k = some true then some [0, 1, 2, 3, 4]
            else none)
      ∧ v.filter.item_type = some [toLowercase ty.toDisplayString]
      ∧ v.filter.name = it.name
      ∧ v.limit = 200 ∧ v.offset = 0
      ∧ v.sort.field = "LOT_FIELD_MIN_PRICE"
      ∧ v.sort.sort_type = "SORT_TYPE_ASC" := by
  obtain ⟨o, t, n⟩ := it
  cases h
  refine ⟨_, rfl, ?_, rfl, rfl, rfl, rfl, rfl, rfl⟩
  intro k
  cases k <;> exact optionFilterValue_eq o _

/-- The spec's worked example: a Helm named "Pad" with DamageDecrease and
ZenDropRate enabled and everything else disabled. -/
def padHelmItem : Item :=
  ((Item.new "Pad" .Helm).setOption .DD true).setOption .Zen true

/-- Witness for C1 at the spec's worked example. -/
theorem generate_gql_vars_correct_witness :
    ∃ v : Gql.Vars, padHelmItem.generate_gql_vars = some v
      ∧ (∀ k : ItemOptionType,
          v.filter.fieldOf k =
            if padHelmItem.options.get k = some true then some [0, 1, 2, 3, 4]
            else none)
      ∧ v.filter.item_type = some [toLowercase ItemType.Helm.toDisplayString]
      ∧ v.filter.name = padHelmItem.name
      ∧ v.limit = 200 ∧ v.offset = 0
      ∧ v.sort.field = "LOT_FIELD_MIN_PRICE"
      ∧ v.sort.sort_type = "SORT_TYPE_ASC" :=
  generate_gql_vars_correct padHelmItem .Helm rfl

/-- A concrete market lot from an earlier search. -/
def lotA : Gql.Item :=
  { id := some "lotA", source := none, is_mine := none, item_type := none,
    gear_score := some 100, has_pending_counter_offer := none,
    prices := [], currencies := none }

/-- A concrete market lot delivered by the new search. -/
def lotB : Gql.Item :=
  { id := some "lotB", source := none, is_mine := none, item_type := none,
    gear_score := some 200, has_pending_counter_offer := none,
    prices := [], currencies := none }

/-- A state still holding an offer from a search on a different item. -/
def staleOffersState : AppState :=
  { collections := PlayerCollection.default, current_set_index := 0,
    offers := ("Bone Helm", [lotA]) }

/-- The result data of the new search: the single lot `lotB`. -/
def padResultData : Gql.Data :=
  { lots :=
      { lots := [lotB],
        pagination := { total := 1, current_page := 1, next_page_exists := false } } }

/-- C2 counterexample: start a search for the Pad helm from a state whose
Offer List still holds an offer from a search on a different item
("Bone Helm"); when the result with the single lot `lotB` arrives, the Offer
List is `[lotA, lotB]` — appended to, not replaced — contradicting the claim
that it afterwards contains exactly the offers of that result. -/
theorem offerList_not_replaced_counterexample :
    (handleMarketSearchResult
        (handleSearchMarket staleOffersState (Item.new "Pad" .Helm))
        "Pad Helm" padResultData).offers.snd = [lotA, lotB]
    ∧ (handleMarketSearchResult
        (handleSearchMarket staleOffersState (Item.new "Pad" .Helm))
        "Pad Helm" padResultData).offers.snd ≠ [lotB] := by
  have he : (handleMarketSearchResult
      (handleSearchMarket staleOffersState (Item.new "Pad" .Helm))
      "Pad Helm" padResultData).offers.snd = [lotA, lotB] := rfl
  refine ⟨he, fun hcontra => ?_⟩
  rw [he] at hcontra
  have hlen := congrArg List.length hcontra
  simp at hlen

/-- C2 (amended): starting a search leaves the state (and in particular the
Offer List) unchanged, and when a search result arrives its lots are
appended in order to the existing Offer List — prior contents, even from a
search on a different item, are kept, not replaced; the label is set to the
result's item exactly when at least one lot arrived, and the rest of the
state is untouched. Replacement happens only through the explicit clear
paths, never on search start or result arrival. -/
theorem offerList_append_semantics (st : AppState) (it : Item)
    (label : String) (data : Gql.Data) :
    handleSearchMarket st it = st
    ∧ (handleMarketSearchResult st label data).offers.snd =
        st.offers.snd ++ data.lots.lots
    ∧ (handleMarketSearchResult st label data).offers.fst =
        (if data.lots.lots.isEmpty then st.offers.fst else label)
    ∧ (handleMarketSearchResult st label data).collections = st.collections
    ∧ (handleMarketSearchResult st label data).current_set_index =
        st.current_set_index
    ∧ (handleClearOffers st).offers.snd = [] := by
  refine ⟨rfl, ?_, ?_, ?_, ?_, rfl⟩ <;>
    · unfold handleMarketSearchResult
      rw [marketFoldl_closedForm]

/-- C3: loading from a missing/unreadable file, from an empty file, and
from a file whose contents fail to parse all yield the full default
catalog; `loadCollection` is total, so no error reaches the caller. -/
theorem loadCollection_falls_back_to_default
    (parse : String → Option PlayerCollection) :
    loadCollection parse none = PlayerCollection.default
    ∧ loadCollection parse (some "") = PlayerCollection.default
    ∧ ∀ s : String, parse s = none →
        loadCollection parse (some s) = PlayerCollection.default := by
  refine ⟨rfl, rfl, ?_⟩
  intro s hs
  by_cases he : s.isEmpty
  · simp [loadCollection, he]
  · simp [loadCollection, he, hs]

/-- Witness for C3: the three boundary scenarios with a parser that always
fails. -/
theorem loadCollection_falls_back_to_default_witness :
    loadCollection (fun _ => (none : Option PlayerCollection)) none =
        PlayerCollection.default
    ∧ loadCollection (fun _ => (none : Option PlayerCollection)) (some "") =
        PlayerCollection.default
    ∧ loadCollection (fun _ => (none : Option PlayerCollection))
        (some "garbage") = PlayerCollection.default :=
  ⟨(loadCollection_falls_back_to_default _).1,
    (loadCollection_falls_back_to_default _).2.1,
    (loadCollection_falls_back_to_default _).2.2 "garbage" rfl⟩

/-- C4: serializing and then deserializing a `PlayerCollection` through the
serde/RON data model yields a structurally equal collection, for the default
collection (empty toggle sequence) and for any collection obtained from it
by an arbitrary sequence of option toggles. -/
theorem playerCollection_ron_roundtrip (ops : List Toggle) :
    PlayerCollection.fromRon
        (PlayerCollection.toRon (applyToggles PlayerCollection.default ops)) =
      some (applyToggles PlayerCollection.default ops) :=
  collectionRon_rt _
    (applyToggles_WF ops PlayerCollection.default defaultCollection_WF)

/-- C5: immediately after construction, an item's option flags enumerate as
exactly the six kinds, each false, in ordinal order, for every name and
slot type. -/
theorem item_new_displayOptions (name : String) (ty : ItemType) :
    (Item.new name ty).displayOptions =
      [(.MH, false), (.SD, false), (.DD, false), (.Ref, false),
        (.Dsr, false), (.Zen, false)] := rfl

/-- C6: setting option `k` to `b` makes kind `k` read `b` and leaves the
value of every other kind unchanged. -/
theorem setOption_get_frame (it : Item) (k : ItemOptionType) (b : Bool)
    (j : ItemOptionType) :
    ((it.setOption k b).options).get j =
      if j = k then some b else it.options.get j :=
  lookupOption_insertOption it.options.entries k b j

/-- The key list is invariant under any `setOption` sequence from a
well-formed start. -/
theorem foldl_setOption_keys (ops : List (ItemOptionType × Bool)) :
    ∀ it : Item, it.options.keys = sixOptionKinds →
      ((ops.foldl (fun a p => a.setOption p.fst p.snd) it).options).keys =
        sixOptionKinds := by
  induction ops with
  | nil => intro it h; exact h
  | cons op t ih =>
    intro it h
    exact ih _ (insertOption_keys it.options.entries h op.fst op.snd)

/-- C7: from construction onward, the key set of an item's option map is
exactly the six fixed kinds — no sequence of `setOption` calls ever adds or
removes a key or leaves the map partial. -/
theorem option_keys_invariant (name : String) (ty : ItemType)
    (ops : List (ItemOptionType × Bool)) :
    ((ops.foldl (fun a p => a.setOption p.fst p.snd)
        (Item.new name ty)).options).keys = sixOptionKinds :=
  foldl_setOption_keys ops (Item.new name ty) rfl

/-- C8: converting any slot-type value or any of the 44 set-name values to
its display label and back yields the original value (exact, case-sensitive
round trip). -/
theorem display_label_roundtrip :
    (∀ t : ItemType, ItemType.fromString t.toDisplayString = some t)
    ∧ (∀ s : AllSets, AllSets.fromString s.toDisplayString = some s) :=
  ⟨fun t => by cases t <;> rfl, fun s => by cases s <;> rfl⟩

/-- C9: a market-search result carrying zero lots leaves the application
state fully unchanged — the Offer List keeps its contents and the stored
source-item label keeps its previous value. -/
theorem marketSearchResult_empty_noop (st : AppState) (label : String)
    (data : Gql.Data) (h : data.lots.lots = []) :
    handleMarketSearchResult st label data = st := by
  unfold handleMarketSearchResult
  rw [h]
  rfl

/-- A state with a stored label from an earlier search and an empty list. -/
def staleLabelState : AppState :=
  { collections := PlayerCollection.default, current_set_index := 0,
    offers := ("Bone Helm", []) }

/-- An arrived search result containing zero lots. -/
def emptyResultData : Gql.Data :=
  { lots :=
      { lots := [],
        pagination := { total := 0, current_page := 1, next_page_exists := false } } }

/-- Witness for C9: a zero-lot result for the Pad helm leaves a state whose
label still names the Bone helm completely unchanged. -/
theorem marketSearchResult_empty_noop_witness :
    handleMarketSearchResult staleLabelState "Pad Helm" emptyResultData =
      staleLabelState :=
  marketSearchResult_empty_noop staleLabelState "Pad Helm" emptyResultData rfl

/-- C10: every one of the five items built by `SetItems::new` carries the
set's display label as its name, and therefore the name filter of a market
query generated for any slot of that set is the set's label. -/
theorem setItems_share_display_name (s : AllSets) (it : Item)
    (h : it ∈ (SetItems.new s).itemsList) :
    it.name = some s.toDisplayString
    ∧ ∃ v : Gql.Vars, it.generate_gql_vars = some v
        ∧ v.filter.name = some s.toDisplayString := by
  simp only [SetItems.new, SetItems.itemsList, List.mem_cons,
    List.not_mem_nil, or_false] at h
  rcases h with rfl | rfl | rfl | rfl | rfl <;>
    exact ⟨rfl, ⟨_, rfl, rfl⟩⟩

/-- Witness for C10: the helm of the Pad set. -/
theorem setItems_share_display_name_witness :
    (SetItems.new AllSets.Pad).items.i0.name =
        some (AllSets.toDisplayString .Pad)
    ∧ ∃ v : Gql.Vars,
        (SetItems.new AllSets.Pad).items.i0.generate_gql_vars = some v
        ∧ v.filter.name = some (AllSets.toDisplayString .Pad) :=
  setItems_share_display_name AllSets.Pad (SetItems.new AllSets.Pad).items.i0
    (by simp [SetItems.new, SetItems.itemsList])
